import Mathlib

/-
Verification development for FGC_Data.py (tournament data collector for the
start.gg GraphQL API).

The Python source is shallowly embedded: every stateful or effectful piece of
the program (the requests library, the work queue, instance attributes) is
turned into explicit state passing over pure, executable Lean functions.
Network responses are supplied by oracle functions (one value per request),
mirroring exactly how the code consumes `self.api.results`.

Conventions used throughout:
 * Python dicts are association lists `List (k × v)`; `dinsert` is dict
   assignment (replace the value in place if the key exists, else append),
   which matches CPython dict semantics including insertion order.
 * A Python value that may be absent is an `Option`; where the distinction
   between an absent JSON key and an explicit JSON null is observable through
   `dict.get`, the three-state `JField` type is used instead.
 * Wall-clock instants are exact rationals (seconds).  Integer ids are `Nat`,
   epoch timestamps and scores are `Int`.
 * Python `set` iteration order is implementation defined; it is modelled as
   first-insertion order, and no theorem below depends on which of the two
   possible orders CPython produces.
-/

/-! ### Generic association-list helpers (Python dict semantics) -/

/-- Lookup in an association list: the value at the first matching key. -/
def alookup {α β : Type} [DecidableEq α] : List (α × β) → α → Option β
  | [], _ => none
  | kv :: rest, k => if kv.1 = k then some kv.2 else alookup rest k

/-- Python dict assignment `d[k] = v`: replace in place if the key is
present, otherwise append.  Preserves insertion order like CPython. -/
def dinsert {α β : Type} [DecidableEq α] : List (α × β) → α → β → List (α × β)
  | [], k, v => [(k, v)]
  | kv :: rest, k, v => if kv.1 = k then (k, v) :: rest else kv :: dinsert rest k v

/-- First-of-two options (left biased). -/
def ofirst {α : Type} (a b : Option α) : Option α :=
  match a with
  | some v => some v
  | none => b

/-- Python `set.add` modelled on a duplicate-free list (first-insertion order). -/
def addPid (l : List Nat) (pid : Nat) : List Nat :=
  if pid ∈ l then l else l ++ [pid]

/-- Python `dict.update(extra)`: assign every pair of `extra`, in order,
into `base` (so `extra` entries overwrite `base` entries). -/
def dictUpdate {α β : Type} [DecidableEq α] (base extra : List (α × β)) : List (α × β) :=
  extra.foldl (fun b kv => dinsert b kv.1 kv.2) base

/-- Split a list into chunks of `n` (fuel-driven; `chunks` supplies the fuel). -/
def chunksGo {α : Type} (n : Nat) : Nat → List α → List (List α)
  | 0, _ => []
  | _, [] => []
  | Nat.succ fuel, l => l.take n :: chunksGo n fuel (l.drop n)

/-- `tournament_list[i:i+batch_size]` slicing loop of the Python code:
the list split into consecutive chunks of size `n`. -/
def chunks {α : Type} (n : Nat) (l : List α) : List (List α) :=
  chunksGo n l.length l

/-! ### C1 — rate limiter timing model

`SmartStartGGAPI.make_safe_request` (FGC_Data.py lines 47-82).  The whole
body of one attempt runs under `self.rate_limit_lock`, so concurrent workers
are serialized; a trace element is one lock acquisition.  On acquiring the
lock at instant `arrive` the code computes
`time_since_last = arrive - last_request_time` and sleeps `0.6 -
time_since_last` when that is below 0.6 s, so the `requests.post` call starts
at `slotStart last arrive`.  Line 57 sets `self.last_request_time =
datetime.now()` immediately after `requests.post` returns — i.e. to the
completion instant.  Line 57 runs BEFORE any status handling, so every call
that obtains a response records its last-call time, whatever the status
code: the 429/5xx branches, `raise_for_status()` (line 70) and
`response.json()` (line 71) all execute after the recording.  The only
calls that record nothing are those whose `requests.post` call itself
raises (transport error, connection failure, timeout): that exception
skips line 57. -/

/-- The configured minimum interval, 0.6 seconds, as an exact rational. -/
def rateInterval : ℚ := 3 / 5

/-- Start instant of the `requests.post` call for a lock acquisition at
`arrive` given recorded last-call time `last` (lines 51-53). -/
def slotStart (last arrive : ℚ) : ℚ :=
  if arrive - last < rateInterval then last + rateInterval else arrive

/-- What one `requests.post` call does: `completes` means the post RETURNS
a response after `dur` seconds, whatever its status code (a 4xx response
whose later `raise_for_status()` on line 70 throws still completes here,
after line 57 has run); `raises` means the `requests.post` call ITSELF
raises after `dur` seconds — transport error, connection failure or
timeout — so no response is obtained. -/
inductive PostOutcome where
  | completes (dur : ℚ)
  | raises (dur : ℚ)
deriving DecidableEq

/-- Duration of a post, whichever way it ends. -/
def durOf : PostOutcome → ℚ
  | PostOutcome.completes d => d
  | PostOutcome.raises d => d

/-- Serialized execution of a sequence of lock acquisitions.  Each trace
element is (lock-acquisition instant, post outcome); the result lists
(post start instant, post returned a response?).  A post that returns a
response records its completion instant as the new last-call time — line
57, which runs before any status handling, so 4xx/429/5xx responses record
it too; a post whose `requests.post` call itself raises (transport error
or timeout) records nothing, because the exception skips line 57. -/
def limiterRun : ℚ → List (ℚ × PostOutcome) → List (ℚ × Bool)
  | _, [] => []
  | last, (arrive, PostOutcome.completes d) :: rest =>
      let s := slotStart last arrive
      (s, true) :: limiterRun (s + d) rest
  | last, (arrive, PostOutcome.raises _) :: rest =>
      let s := slotStart last arrive
      (s, false) :: limiterRun last rest

/-- Start instants of the posts that returned a response. -/
def completedStarts (l : List (ℚ × Bool)) : List ℚ :=
  (l.filter (fun sb => sb.2)).map Prod.fst

/-- Consecutive elements are at least `rateInterval` apart. -/
def spaced (l : List ℚ) : Prop :=
  l.Chain' (fun a b => a + rateInterval ≤ b)

/-- Two serialized calls: the first post hits a transport error (e.g. a
refused connection) 0.05 s after it starts, so `requests.post` itself
raises and line 57 never runs; the second call acquires the lock right
after the exception releases it. -/
def c1Trace : List (ℚ × PostOutcome) :=
  [(100, PostOutcome.raises (1 / 20)), (2009 / 20, PostOutcome.completes 1)]

/-- A benign two-call trace whose posts both complete. -/
def c1WTrace : List (ℚ × PostOutcome) :=
  [(1, PostOutcome.completes 1), (2, PostOutcome.completes 0)]

/-! ### C4 — retry loop of `make_safe_request` (lines 47-82)

The attempt structure of the same function, with time abstracted away.  The
oracle `resps i` is what the i-th executed HTTP attempt observes.  The loop
`for attempt in range(retries)` runs one oracle entry per iteration:
 * HTTP 429 → sleep `Retry-After` (default 60) and `continue` (lines 60-64);
 * HTTP ≥ 500 → sleep 8 s and `continue` (lines 65-68);
 * any exception (transport, timeout, 4xx via raise_for_status, bad JSON)
   → sleep `5 * (attempt+1)` and next iteration (lines 78-81);
 * a GraphQL `errors` payload → return None immediately (lines 73-75);
 * otherwise → return the payload (line 76).
Every `continue`/exception path advances `attempt`; when the loop ends the
function returns None (line 82). -/

/-- Classified outcome of one HTTP attempt. -/
inductive ApiResult (α : Type) where
  | rateLimited (retryAfter : Option Nat)
  | serverError (code : Nat)
  | exn
  | gqlErrors
  | payload (a : α)
deriving DecidableEq

/-- The retry loop from attempt index `i` with `fuel` iterations left. -/
def makeSafeRequestGo {α : Type} (resps : Nat → ApiResult α) : Nat → Nat → Option α
  | _, 0 => none
  | i, Nat.succ fuel =>
    match resps i with
    | ApiResult.payload a => some a
    | ApiResult.gqlErrors => none
    | ApiResult.rateLimited _ => makeSafeRequestGo resps (i + 1) fuel
    | ApiResult.serverError _ => makeSafeRequestGo resps (i + 1) fuel
    | ApiResult.exn => makeSafeRequestGo resps (i + 1) fuel

/-- `make_safe_request(query, variables, retries)` as a function of the
response stream (the code passes retries=3 everywhere). -/
def make_safe_request {α : Type} (resps : Nat → ApiResult α) (retries : Nat) : Option α :=
  makeSafeRequestGo resps 0 retries

/-- `int(response.headers.get("Retry-After", 60))` (line 61). -/
def retryAfterSleep (retryAfter : Option Nat) : Nat :=
  retryAfter.getD 60

/-- Prepend one response to a response stream. -/
def oracleCons {α : Type} (r : ApiResult α) (resps : Nat → ApiResult α) : Nat → ApiResult α
  | 0 => r
  | Nat.succ n => resps n

/-- Three rate-limit responses followed by a success. -/
def c4Oracle : Nat → ApiResult Nat :=
  fun i => if i < 3 then ApiResult.rateLimited none else ApiResult.payload 7

/-! ### C3 — per-player tournament pagination
(`get_player_tournaments_simple` lines 225-289,
`get_additional_player_sets_pages` lines 291-344)

One response set node carries `event.videogame.name` (optional) and the
required `event.tournament` fields `id`, `slug`, `name` plus the optional
`startAt`; the nesting is flattened here since the intermediate objects are
only ever indexed through. -/

/-- One node of `player.sets.nodes` in a PlayerTournaments page. -/
structure SetNode where
  videogame : Option String
  tid : Nat
  slug : String
  name : String
  startAt : Option Int
deriving DecidableEq

/-- Value stored per tournament id (lines 278-282 and 338-342). -/
structure TournInfo where
  slug : String
  name : String
  date : Int
deriving DecidableEq

/-- Page-1 response: nodes plus `pageInfo.totalPages` (lines 262-263). -/
structure PlayerSetsPage1 where
  nodes : List SetNode
  totalPages : Nat
deriving DecidableEq

/-- Response of one additional page (nodes only, lines 322-324). -/
structure PlayerSetsPage where
  nodes : List SetNode
deriving DecidableEq

/-- The two filters applied per node (lines 268-276 and 328-336):
keep the node when the game filter passes (`if self.target_game_name and
event_game != self.target_game_name: continue`, no filtering when the target
game is None) and the start timestamp is truthy and inside
[one_year_ago, current_time]. -/
def nodeKeep (targetGame : Option String) (oneYearAgo currentTime : Int) (n : SetNode) : Bool :=
  (match targetGame with
   | none => true
   | some g => n.videogame.getD ("Unknown") = g) &&
  (match n.startAt with
   | none => false
   | some d => d ≠ 0 && oneYearAgo ≤ d && d ≤ currentTime)

/-- Fold the qualifying nodes of one page into the tournaments dict
(`tournaments[tourney_id] = {...}`, dict assignment semantics). -/
def processSetNodes (targetGame : Option String) (oneYearAgo currentTime : Int)
    (acc : List (Nat × TournInfo)) (nodes : List SetNode) : List (Nat × TournInfo) :=
  nodes.foldl
    (fun a n =>
      if nodeKeep targetGame oneYearAgo currentTime n then
        dinsert a n.tid { slug := n.slug, name := n.name, date := n.startAt.getD 0 }
      else a) acc

/-- `get_additional_player_sets_pages` (lines 291-344): fetch pages
2 .. 2 + min(4, total_pages - 1) - 1 and accumulate them into one dict;
`pageOf p` is the oracle for the page-p response (None when the request
failed, matching `if result and result['data']`). -/
def get_additional_player_sets_pages (targetGame : Option String) (oneYearAgo currentTime : Int)
    (pageOf : Nat → Option PlayerSetsPage) (totalPages : Nat) : List (Nat × TournInfo) :=
  (List.range' 2 (min 4 (totalPages - 1))).foldl
    (fun acc page =>
      match pageOf page with
      | none => acc
      | some pr => processSetNodes targetGame oneYearAgo currentTime acc pr.nodes) []

/-- `get_player_tournaments_simple` (lines 225-289): process page 1, and when
`total_pages > 1` merge the additional pages with `tournaments.update(...)`
(line 286), whose dict.update semantics let later pages overwrite page 1. -/
def get_player_tournaments_simple (targetGame : Option String) (oneYearAgo currentTime : Int)
    (page1 : Option PlayerSetsPage1) (pageOf : Nat → Option PlayerSetsPage) :
    List (Nat × TournInfo) :=
  match page1 with
  | none => []
  | some r =>
    let t1 := processSetNodes targetGame oneYearAgo currentTime [] r.nodes
    if 1 < r.totalPages then
      dictUpdate t1 (get_additional_player_sets_pages targetGame oneYearAgo currentTime pageOf r.totalPages)
    else t1

/-- Page-1 response with tournament id 5 under slug "a". -/
def c3Page1 : PlayerSetsPage1 :=
  { nodes := [{ videogame := some ("G"), tid := 5, slug := "a", name := "n1", startAt := some 10 }],
    totalPages := 2 }

/-- Page-2 response carrying the same tournament id 5 with different values. -/
def c3PageOf : Nat → Option PlayerSetsPage :=
  fun p =>
    if p = 2 then
      some { nodes := [{ videogame := some ("G"), tid := 5, slug := "b", name := "n2", startAt := some 20 }] }
    else none

/-! ### C2 / C10 — per-match score fetch (`get_set_score`, lines 646-676)

The SetScore response is modelled with the absent/null/value distinction,
because Python `dict.get(key, default)` yields the default only for an
ABSENT key: an explicit JSON null is returned as None, so
`{...}.get("value", 0)` produces None (formatted "None"), and calling
`.get` on a None intermediate raises AttributeError.  `Except.error ()`
models such an uncaught exception. -/

/-- A JSON object field: absent key, explicit null, or a value. -/
inductive JField (α : Type) where
  | absent
  | null
  | val (x : α)
deriving DecidableEq

/-- `standing.stats.score` object: `{ value }`. -/
structure ScoreObj where
  value : JField Int
deriving DecidableEq

/-- `standing.stats` object: `{ score }`. -/
structure StatsObj where
  score : JField ScoreObj
deriving DecidableEq

/-- slot `standing` object: `{ stats }`. -/
structure StandingObj where
  stats : JField StatsObj
deriving DecidableEq

/-- One slot of the SetScore response (the entrant id is fetched by the
query but never read by the code). -/
structure ScoreSlot where
  standing : JField StandingObj
deriving DecidableEq

/-- `set` object of the SetScore response. -/
structure SetScoreResp where
  slots : List ScoreSlot
deriving DecidableEq

/-- `slots[i].get("standing", {}).get("stats", {}).get("score", {}).get("value", 0)`
(lines 672-673).  An absent key at any level chains empty dicts down to the
default 0; a null at an intermediate level raises; a null leaf yields None. -/
def slotScoreValue (slot : ScoreSlot) : Except Unit (Option Int) :=
  match slot.standing with
  | JField.null => Except.error ()
  | JField.absent => Except.ok (some 0)
  | JField.val st =>
    match st.stats with
    | JField.null => Except.error ()
    | JField.absent => Except.ok (some 0)
    | JField.val stats =>
      match stats.score with
      | JField.null => Except.error ()
      | JField.absent => Except.ok (some 0)
      | JField.val sc =>
        match sc.value with
        | JField.null => Except.ok none
        | JField.absent => Except.ok (some 0)
        | JField.val v => Except.ok (some v)

/-- Python f-string rendering of the fetched score value. -/
def pyShow : Option Int → String
  | none => "None"
  | some n => toString n

/-- `get_set_score` (lines 646-676) as a function of the SetScore response;
`none` covers every falsy guard on line 669 (missing result, None data,
null set).  Returns the formatted `f"{score1}-{score2}"` in SLOT order,
or the fallback "0-0". -/
def get_set_score (resp : Option SetScoreResp) : Except Unit String :=
  match resp with
  | none => Except.ok "0-0"
  | some r =>
    match r.slots with
    | [s0, s1] =>
      match slotScoreValue s0 with
      | Except.error e => Except.error e
      | Except.ok v0 =>
        match slotScoreValue s1 with
        | Except.error e => Except.error e
        | Except.ok v1 => Except.ok (pyShow v0 ++ "-" ++ pyShow v1)
    | _ => Except.ok "0-0"

/-- Modelled from the spec wording (not from the source): "format as
`winner_score-loser_score`" — the winner's numeric score first. -/
def specWinnerFirstScore (winnerScore loserScore : Int) : String :=
  toString winnerScore ++ "-" ++ toString loserScore

/-- A slot whose standing chain is fully present with score value `v`. -/
def scoreSlotVal (v : Int) : ScoreSlot :=
  { standing := JField.val { stats := JField.val { score := JField.val { value := JField.val v } } } }

/-- A slot whose score value is an explicit JSON null. -/
def scoreSlotNull : ScoreSlot :=
  { standing := JField.val { stats := JField.val { score := JField.val { value := JField.null } } } }

/-- SetScore response for C10: slot 1 score null, slot 2 score 3. -/
def c10Resp : SetScoreResp :=
  { slots := [scoreSlotNull, scoreSlotVal 3] }

/-- A genuine 0-0 response: both scores present and zero. -/
def c10ZeroResp : SetScoreResp :=
  { slots := [scoreSlotVal 0, scoreSlotVal 0] }

/-- A malformed response with a single slot. -/
def c10OneSlot : SetScoreResp :=
  { slots := [scoreSlotVal 2] }

/-- A slot with no standing key at all. -/
def c10AbsentSlot : ScoreSlot :=
  { standing := JField.absent }

/-- SetScore response for C2: slot 1 (the eventual loser) scored 1,
slot 2 (the eventual winner) scored 3. -/
def c2ScoreResp : SetScoreResp :=
  { slots := [scoreSlotVal 1, scoreSlotVal 3] }

/-! ### C2 / C6 / C7 / C9 — head-to-head extraction
(`analyze_set_for_h2h`, lines 587-644)

Data shapes follow the TournamentSets query (lines 515-549).  A participant
whose `player` key is absent yields `player_data = {}` and a None id, which
is skipped (None is never in the target id set).  `slot.get("standing", {})
or {}` coerces a null or missing standing to an empty dict, so the recorded
placement is None in all of those cases; `standing : Option SlotStanding`
with `placement : Option Int` captures exactly that. -/

/-- `participant["player"]` object (`id` and `gamerTag` read via .get). -/
structure PlayerObj where
  id : Option Nat
  gamerTag : Option String
deriving DecidableEq

/-- One participant of an entrant. -/
structure ParticipantObj where
  player : Option PlayerObj
deriving DecidableEq

/-- `slot["entrant"]` object. -/
structure EntrantObj where
  participants : List ParticipantObj
deriving DecidableEq

/-- slot standing for TournamentSets: `{ placement }`. -/
structure SlotStanding where
  placement : Option Int
deriving DecidableEq

/-- One slot of a set: a missing entrant is a bye (line 596-598 skips it). -/
structure SlotObj where
  entrant : Option EntrantObj
  standing : Option SlotStanding
deriving DecidableEq

/-- One set node (`set_data`): its id and its slots. -/
structure SetData where
  sid : Nat
  slots : List SlotObj
deriving DecidableEq

/-- Entry of `player_details` (lines 605-609): id, tag, recorded placement. -/
structure PlayerDetail where
  pid : Nat
  tag : String
  placement : Option Int
deriving DecidableEq

/-- Processing of one participant (lines 599-609): a target player id adds
itself to `players_in_set` and (re)writes its `player_details` entry with
the CURRENT slot's placement, so a later slot overwrites an earlier one. -/
def collectPart (targets : List Nat) (standing : Option SlotStanding)
    (acc : List (Nat × PlayerDetail)) (part : ParticipantObj) : List (Nat × PlayerDetail) :=
  match part.player with
  | none => acc
  | some pl =>
    match pl.id with
    | none => acc
    | some pid =>
      if pid ∈ targets then
        dinsert acc pid
          { pid := pid, tag := pl.gamerTag.getD ("Unknown"),
            placement := standing.bind SlotStanding.placement }
      else acc

/-- Processing of one slot (lines 595-609): a bye slot (no entrant)
contributes nothing. -/
def collectSlot (targets : List Nat) (acc : List (Nat × PlayerDetail)) (slot : SlotObj) :
    List (Nat × PlayerDetail) :=
  match slot.entrant with
  | none => acc
  | some e => e.participants.foldl (collectPart targets slot.standing) acc

/-- `players_in_set` / `player_details` built over both slots.  The assoc
list's keys are the distinct target ids found (first-insertion order), its
values the last-written detail — exactly the Python set plus dict pair. -/
def collectTargets (targets : List Nat) (slots : List SlotObj) : List (Nat × PlayerDetail) :=
  slots.foldl (collectSlot targets) []

/-- The target ids contributed by one participant (independent recount used
to state theorems about which ids appear where). -/
def pickTarget (targets : List Nat) (part : ParticipantObj) : Option Nat :=
  match part.player with
  | none => none
  | some pl =>
    match pl.id with
    | none => none
    | some pid => if pid ∈ targets then some pid else none

/-- Target ids appearing among one slot's participants (empty for a bye). -/
def slotTargetIds (targets : List Nat) (slot : SlotObj) : List Nat :=
  match slot.entrant with
  | none => []
  | some e => e.participants.filterMap (pickTarget targets)

/-- The set of distinct target ids appearing anywhere in the given slots. -/
def setTargetIds (targets : List Nat) (slots : List SlotObj) : Finset Nat :=
  (slots.flatMap (slotTargetIds targets)).toFinset

/-- The placement the extractor records for player `pid` (the standing of
the LAST slot in which `pid` appears as a target participant). -/
def recordedPlacement (targets : List Nat) (slots : List SlotObj) (pid : Nat) :
    Option (Option Int) :=
  Option.map PlayerDetail.placement (alookup (collectTargets targets slots) pid)

/-- Event of a TournamentSets response (lines 521-545). -/
structure SetsEvent where
  videogame : Option String
  sets : List SetData
deriving DecidableEq

/-- Tournament object of a TournamentSets response (`tourney_data`). -/
structure SetsTournament where
  name : Option String
  startAt : Option Int
  events : List SetsEvent
deriving DecidableEq

/-- Emitted head-to-head record (lines 629-642). -/
structure H2HMatch where
  player1_id : Nat
  player1_tag : String
  player2_id : Nat
  player2_tag : String
  winner_id : Nat
  winner_tag : String
  loser_id : Nat
  loser_tag : String
  score : String
  set_id : Nat
  tournament_name : String
  tournament_date : String
deriving DecidableEq

/-- `datetime.fromtimestamp(ts).strftime("%Y-%m-%d") if ts else "Unknown"`:
calendar rendering is abstracted by the `fmtDate` parameter; the truthiness
test makes both a missing and a zero timestamp render as "Unknown". -/
def pyDate (fmtDate : Int → String) (startAt : Option Int) : String :=
  match startAt with
  | none => "Unknown"
  | some ts => if ts = 0 then "Unknown" else fmtDate ts

/-- `analyze_set_for_h2h` (lines 587-644).  `score` stands for the value the
secondary `self.get_set_score(set_data["id"])` network call returns on line
627.  `players_in_set`/`player_details` are `collectTargets`; `(id1, p1)`
and `(id2, p2)` are `player_ids[0]/[1]` with their detail entries (by
construction `p1.pid = id1` and `p2.pid = id2`, so the dict lookups
`player_details[winner_id]` and `player_details[loser_id]` reduce to
choosing between `p1` and `p2`).  Python `if winner_id:` is false for the
integer 0, hence the extra `wid = 0` branch. -/
def analyze_set_for_h2h (fmtDate : Int → String) (setData : SetData) (targets : List Nat)
    (tourney : SetsTournament) (score : String) : Option H2HMatch :=
  if setData.slots.length = 2 then
    match collectTargets targets setData.slots with
    | [(id1, p1), (id2, p2)] =>
      let winnerId : Option Nat :=
        if p1.placement = some 1 then some p1.pid
        else if p2.placement = some 1 then some p2.pid
        else none
      match winnerId with
      | none => none
      | some wid =>
        if wid = 0 then none
        else
          let winner := if id1 = wid then p1 else p2
          let loserId := if id1 ≠ wid then id1 else id2
          let loser := if id1 = loserId then p1 else p2
          some {
            player1_id := p1.pid, player1_tag := p1.tag,
            player2_id := p2.pid, player2_tag := p2.tag,
            winner_id := winner.pid, winner_tag := winner.tag,
            loser_id := loser.pid, loser_tag := loser.tag,
            score := score,
            set_id := setData.sid,
            tournament_name := tourney.name.getD ("Unknown"),
            tournament_date := pyDate fmtDate tourney.startAt }
    | _ => none
  else none

/-- A slot holding a single player with the given id, tag and placement. -/
def singleSlot (pid : Nat) (tag : String) (pl : Option Int) : SlotObj :=
  { entrant := some { participants := [{ player := some { id := some pid, gamerTag := some tag } }] },
    standing := some { placement := pl } }

/-- A tournament wrapper used by the concrete inputs below. -/
def cTourney : SetsTournament :=
  { name := some ("T"), startAt := some 5, events := [] }

/-- C2 input: target 10 (tag A) lost in slot 1 (placement 2), target 20
(tag B) won in slot 2 (placement 1). -/
def c2Set : SetData :=
  { sid := 77, slots := [singleSlot 10 ("A") (some 2), singleSlot 20 ("B") (some 1)] }

/-- C6 counterexample input: BOTH targets 10 and 20 are participants of the
winning slot 1 (a team entrant); slot 2 holds only the non-target 30. -/
def c6Set : SetData :=
  { sid := 78,
    slots := [
      { entrant := some { participants := [
          { player := some { id := some 10, gamerTag := some ("A") } },
          { player := some { id := some 20, gamerTag := some ("B") } }] },
        standing := some { placement := some 1 } },
      singleSlot 30 ("C") (some 2)] }

/-- C6 witness input: a clean one-target-per-slot match. -/
def c6WSet : SetData :=
  { sid := 79, slots := [singleSlot 10 ("A") (some 1), singleSlot 20 ("B") (some 2)] }

/-- C7 counterexample input: both slots carry placement 1. -/
def c7Set : SetData :=
  { sid := 80, slots := [singleSlot 10 ("A") (some 1), singleSlot 20 ("B") (some 1)] }

/-- C7 witness input: winner in slot 2 with placement 1. -/
def c7WSet : SetData :=
  { sid := 81, slots := [singleSlot 10 ("A") (some 2), singleSlot 20 ("B") (some 1)] }

/-- A bye slot: no entrant at all. -/
def byeSlot : SlotObj :=
  { entrant := none, standing := none }

/-- C9 counterexample input: slot 1 is a bye, slot 2 is a team entrant
containing BOTH targets and placement 1. -/
def c9Set : SetData :=
  { sid := 82,
    slots := [
      byeSlot,
      { entrant := some { participants := [
          { player := some { id := some 10, gamerTag := some ("A") } },
          { player := some { id := some 20, gamerTag := some ("B") } }] },
        standing := some { placement := some 1 } }] }

/-- C9 witness input: slot 1 is a bye, slot 2 holds the single target 10. -/
def c9WSet : SetData :=
  { sid := 83, slots := [byeSlot, singleSlot 10 ("A") (some 1)] }

/-! ### C5 — tournament-detail batch fetch with slug cache
(`batch_process_tournament_data`, lines 352-419)

The TournamentData response payload (used later by `find_player_data`). -/

/-- One standings node of a TournamentData event; the
`standing.get("entrant", {}).get("participants", [])` chain is flattened to
the participant list. -/
structure TDataStanding where
  placement : Option Int
  participants : List ParticipantObj
deriving DecidableEq

/-- One event of a TournamentData response. -/
structure TDataEvent where
  name : Option String
  videogame : Option String
  numEntrants : Option Int
  standings : List TDataStanding
deriving DecidableEq

/-- `result["data"]["tournament"]` of a TournamentData response — the blob
stored in both `tournament_details` and `self.tournament_cache`. -/
structure TournamentDetailObj where
  name : Option String
  startAt : Option Int
  events : List TDataEvent
deriving DecidableEq

/-- The mutable state threaded through the batch loop: the instance-level
slug cache, the `tournament_details` result map, and the list of slugs for
which a network request was actually issued. -/
structure BPState where
  cache : List (String × TournamentDetailObj)
  details : List (Nat × TournamentDetailObj)
  requests : List String
deriving DecidableEq

/-- First pass over a batch (lines 370-406): a slug already in the cache
copies the cached blob into the details map; otherwise the request is
enqueued (and will be executed by `process_queue`, so it counts as a
network call). -/
def bpPhase1 : BPState → List (Nat × String) → BPState
  | st, [] => st
  | st, ts :: rest =>
    match alookup st.cache ts.2 with
    | some d => bpPhase1 { st with details := dinsert st.details ts.1 d } rest
    | none => bpPhase1 { st with requests := st.requests ++ [ts.2] } rest

/-- Second pass over the same batch (lines 410-417), run after
`process_queue`: a slug found in the cache — INCLUDING one cached by an
earlier iteration of this very pass — is skipped; otherwise a successful
response populates both maps.  `net slug` is the response oracle (None for
any falsy guard on line 415). -/
def bpPhase2 (net : String → Option TournamentDetailObj) : BPState → List (Nat × String) → BPState
  | st, [] => st
  | st, ts :: rest =>
    match alookup st.cache ts.2 with
    | some _ => bpPhase2 net st rest
    | none =>
      match net ts.2 with
      | some d =>
        bpPhase2 net
          { st with details := dinsert st.details ts.1 d, cache := dinsert st.cache ts.2 d } rest
      | none => bpPhase2 net st rest

/-- The outer loop over batches: phase 1 then phase 2 on each chunk. -/
def bpChunks (net : String → Option TournamentDetailObj) :
    BPState → List (List (Nat × String)) → BPState
  | st, [] => st
  | st, b :: rest => bpChunks net (bpPhase2 net (bpPhase1 st b) b) rest

/-- The batch loop (lines 366-417): chunks of 12, phase 1 then phase 2. -/
def batchProcessSlugList (net : String → Option TournamentDetailObj) (st0 : BPState)
    (tlist : List (Nat × String)) : BPState :=
  bpChunks net st0 (chunks 12 tlist)

/-! Seed-tournament data, needed both for `tournamentSlugs` and for C8. -/

/-- `participant["player"]` of the seed query — indexed directly
(lines 188-190), so the fields are required. -/
structure SeedPlayer where
  id : Nat
  gamerTag : String
deriving DecidableEq

/-- One participant of a seed entrant (`entrant["participants"]`). -/
structure SeedParticipant where
  player : SeedPlayer
deriving DecidableEq

/-- One entrant node of a seed event. -/
structure SeedEntrant where
  participants : List SeedParticipant
deriving DecidableEq

/-- One event of the seed TournamentPlayers response. -/
structure SeedEvent where
  videogame : Option String
  entrants : List SeedEntrant
deriving DecidableEq

/-- `result["data"]["tournament"]` of the TournamentPlayers response. -/
structure SeedTournament where
  events : List SeedEvent
deriving DecidableEq

/-- Per-player result entry of `get_all_player_tournaments_parallel`
(lines 216-219): the player info and the non-empty tournament dict. -/
abbrev PlayerTournaments : Type :=
  List (Nat × SeedPlayer × List (Nat × TournInfo))

/-- `tournament_slugs` construction (lines 356-361): for each tournament id
the slug comes from the FIRST player whose map contains the id. -/
def tournamentSlugs (ids : List Nat) (pt : PlayerTournaments) : List (Nat × String) :=
  ids.filterMap
    (fun tid =>
      (pt.findSome? (fun p => (alookup p.2.2 tid).map (fun info => info.slug))).map
        (fun s => (tid, s)))

/-- `batch_process_tournament_data` (lines 352-419) for a given initial
cache state: build the id→slug list, then run the chunked cache/fetch loop
starting from an empty details map and request log. -/
def batch_process_tournament_data (net : String → Option TournamentDetailObj)
    (cache0 : List (String × TournamentDetailObj)) (ids : List Nat)
    (pt : PlayerTournaments) : BPState :=
  batchProcessSlugList net { cache := cache0, details := [], requests := [] }
    (tournamentSlugs ids pt)

/-- Concrete detail blob used by the C5 inputs. -/
def c5Detail : TournamentDetailObj :=
  { name := some ("T"), startAt := some 9, events := [] }

/-- Second concrete detail blob. -/
def c5Detail2 : TournamentDetailObj :=
  { name := some ("U"), startAt := some 11, events := [] }

/-- Network oracle answering only slug "s". -/
def c5Net : String → Option TournamentDetailObj :=
  fun sl => if sl = "s" then some c5Detail else none

/-- Network oracle answering only slug "x". -/
def c5WNet : String → Option TournamentDetailObj :=
  fun sl => if sl = "x" then some c5Detail2 else none

/-- Initial state whose cache already holds slug "s". -/
def c5WState : BPState :=
  { cache := [("s", c5Detail)], details := [], requests := [] }

/-! ### C8 — the run skeleton (`collect_tournament_data`, lines 92-146)

Every downstream phase is embedded so that the run's only early exits are
visible: `return None` when the seed players are empty (lines 94-96) and
`return None` when no player contributed tournaments (lines 106-108). -/

/-- One step of the event loop of `get_tournament_players_and_game`
(lines 178-190): the first event fixes `game_name` (default "Unknown Game");
every event's own game (default "Unknown") must equal it to contribute
players; the players dict is keyed by player id. -/
def seedStep (acc : List (Nat × SeedPlayer) × Option String) (ev : SeedEvent) :
    List (Nat × SeedPlayer) × Option String :=
  let gname :=
    match acc.2 with
    | none => ev.videogame.getD ("Unknown Game")
    | some g => g
  let evGame := ev.videogame.getD ("Unknown")
  if evGame = gname then
    (ev.entrants.foldl
      (fun ps en => en.participants.foldl (fun ps p => dinsert ps p.player.id p.player) ps)
      acc.1,
     some gname)
  else (acc.1, some gname)

/-- `get_tournament_players_and_game` (lines 148-194): players dict and the
target game name; a falsy response (missing result, None data, null
tournament) yields no players and game None. -/
def get_tournament_players_and_game (resp : Option SeedTournament) :
    List (Nat × SeedPlayer) × Option String :=
  match resp with
  | none => ([], none)
  | some t => t.events.foldl seedStep ([], none)

/-- `get_all_player_tournaments_parallel` (lines 196-223): each player's
history is fetched independently; only players with a non-empty filtered
tournament dict enter the result (`if tournaments:`).  The worker pool's
completion order only permutes the result; seed order is used here and no
theorem depends on it. -/
def playerTournamentsAll (targetGame : Option String) (oneYearAgo currentTime : Int)
    (page1Of : Nat → Option PlayerSetsPage1) (pagesOf : Nat → Nat → Option PlayerSetsPage)
    (players : List (Nat × SeedPlayer)) : PlayerTournaments :=
  players.filterMap
    (fun p =>
      let ts := get_player_tournaments_simple targetGame oneYearAgo currentTime
        (page1Of p.1) (pagesOf p.1)
      if ts.isEmpty then none else some (p.1, p.2, ts))

/-- `get_all_tournament_ids` (lines 346-350): union of all players'
tournament ids, as a duplicate-free list. -/
def get_all_tournament_ids (pt : PlayerTournaments) : List Nat :=
  pt.foldl (fun acc p => p.2.2.foldl (fun a ti => addPid a ti.1) acc) []

/-- Does this standings node contain the player (lines 468-470)? -/
def fpdStanding (pid : Nat) (st : TDataStanding) : Bool :=
  st.participants.any (fun part => (part.player.bind PlayerObj.id) = some pid)

/-- `find_player_data` (lines 458-476): first matching-game event whose
standings contain the player; returns (placement, event name, entrant
count) with the loop's defaults otherwise.  A null placement or entrant
count and an absent one are conflated to 0, which is observationally
equivalent downstream since `create_combined_tournament_histories` only
tests their truthiness. -/
def find_player_data (targetGame : Option String) (td : TournamentDetailObj) (pid : Nat) :
    Int × String × Int :=
  match td.events.findSome?
      (fun ev =>
        if some (ev.videogame.getD ("Unknown")) = targetGame then
          (ev.standings.find? (fpdStanding pid)).map
            (fun st => (st.placement.getD 0, ev.name.getD ("Unknown"), ev.numEntrants.getD 0))
        else none) with
  | some r => r
  | none => (0, "Unknown", 0)

/-- One output row of the tournament-history CSV (lines 432-442). -/
structure HistoryRecord where
  player_id : Nat
  player_tag : String
  tournament_id : Nat
  tournament_name : String
  tournament_slug : String
  tournament_date : String
  placement : Int
  event_name : String
  total_entrants : Int
deriving DecidableEq

/-- `create_combined_tournament_histories` (lines 421-456): one placeholder
record per (player, tournament) pair, enriched from the details map when
present (`if placement:` / `if total_entrants:` truthiness tests). -/
def create_combined_tournament_histories (fmtDate : Int → String) (targetGame : Option String)
    (pt : PlayerTournaments) (details : List (Nat × TournamentDetailObj)) :
    List HistoryRecord :=
  pt.flatMap
    (fun p => p.2.2.map
      (fun ti =>
        let base : HistoryRecord := {
          player_id := p.1, player_tag := p.2.1.gamerTag,
          tournament_id := ti.1, tournament_name := ti.2.name,
          tournament_slug := ti.2.slug,
          tournament_date := if ti.2.date ≠ (0 : Int) then fmtDate ti.2.date else "Unknown",
          placement := 0, event_name := "Unknown", total_entrants := 0 }
        match alookup details ti.1 with
        | none => base
        | some td =>
          let r := find_player_data targetGame td p.1
          let base2 :=
            if r.1 ≠ (0 : Int) then { base with placement := r.1, event_name := r.2.1 } else base
          if r.2.2 ≠ (0 : Int) then { base2 with total_entrants := r.2.2 } else base2))

/-- Value of `shared_tournaments[tid]` (lines 492-498). -/
structure SharedTournament where
  slug : String
  name : String
  date : Int
  players : List Nat
  player_count : Nat
deriving DecidableEq

/-- tid → set of player ids attending it (lines 479-484). -/
def sharedCounts (pt : PlayerTournaments) : List (Nat × List Nat) :=
  pt.foldl
    (fun acc p => p.2.2.foldl
      (fun acc ti =>
        match alookup acc ti.1 with
        | none => dinsert acc ti.1 [p.1]
        | some ps => dinsert acc ti.1 (addPid ps p.1)) acc)
    []

/-- `find_shared_tournaments` (lines 478-501): tournaments with at least two
target players, with metadata from the first player's record. -/
def find_shared_tournaments (pt : PlayerTournaments) : List (Nat × SharedTournament) :=
  (sharedCounts pt).filterMap
    (fun tc =>
      if 2 ≤ tc.2.length then
        pt.findSome?
          (fun p => (alookup p.2.2 tc.1).map
            (fun info =>
              ((tc.1, { slug := info.slug, name := info.name, date := info.date,
                        players := tc.2, player_count := tc.2.length }) : Nat × SharedTournament)))
      else none)

/-- `batch_process_tournament_sets` (lines 503-559): every shared tournament
whose TournamentSets fetch succeeds lands in the result map; the chunked
enqueue/drain structure has no observable effect here because there is no
cache interaction. -/
def batch_process_tournament_sets (setsOf : String → Option SetsTournament)
    (shared : List (Nat × SharedTournament)) : List (Nat × SetsTournament) :=
  shared.filterMap (fun ts => (setsOf ts.2.slug).map (fun td => (ts.1, td)))

/-- `extract_matches_from_tournament` (lines 571-585): matching-game events
only; each set node runs through the analyzer, `scoreOf sid` standing for
the per-set score string `get_set_score` returns. -/
def extract_matches_from_tournament (fmtDate : Int → String) (targetGame : Option String)
    (scoreOf : Nat → String) (td : SetsTournament) (targetIds : List Nat) : List H2HMatch :=
  td.events.foldl
    (fun acc ev =>
      if some (ev.videogame.getD ("Unknown")) = targetGame then
        ev.sets.foldl
          (fun acc sd =>
            match analyze_set_for_h2h fmtDate sd targetIds td (scoreOf sd.sid) with
            | some m => acc ++ [m]
            | none => acc) acc
      else acc)
    []

/-- `extract_head_to_head_matches` (lines 561-569). -/
def extract_head_to_head_matches (fmtDate : Int → String) (targetGame : Option String)
    (scoreOf : Nat → String) (tds : List (Nat × SetsTournament)) (targetIds : List Nat) :
    List H2HMatch :=
  tds.foldl (fun acc td => acc ++ extract_matches_from_tournament fmtDate targetGame scoreOf td.2 targetIds) []

/-- Everything `collect_tournament_data` assembles when it completes
(lines 133-146, with the CSV writing abstracted to the row lists). -/
structure RunResult where
  target_players : Nat
  game : Option String
  total_tournaments : Nat
  shared_tournaments : Nat
  head_to_head_matches : Nat
  histories : List HistoryRecord
  h2h : List H2HMatch
deriving DecidableEq

/-- `collect_tournament_data` (lines 92-146) over the response oracles.
Exactly two paths return None: empty seed players (lines 94-96) and empty
per-player tournament data (lines 106-108); every later phase is total and
ends in the `some` on line 133. -/
def collect_tournament_data (fmtDate : Int → String) (oneYearAgo currentTime : Int)
    (seedResp : Option SeedTournament)
    (page1Of : Nat → Option PlayerSetsPage1)
    (pagesOf : Nat → Nat → Option PlayerSetsPage)
    (net : String → Option TournamentDetailObj)
    (setsOf : String → Option SetsTournament)
    (scoreOf : Nat → String) : Option RunResult :=
  let pg := get_tournament_players_and_game seedResp
  if pg.1.isEmpty then none
  else
    let pt := playerTournamentsAll pg.2 oneYearAgo currentTime page1Of pagesOf pg.1
    if pt.isEmpty then none
    else
      let ids := get_all_tournament_ids pt
      let bp := batch_process_tournament_data net [] ids pt
      let histories := create_combined_tournament_histories fmtDate pg.2 pt bp.details
      let shared := find_shared_tournaments pt
      let h2h :=
        if shared.isEmpty then []
        else extract_head_to_head_matches fmtDate pg.2 scoreOf
          (batch_process_tournament_sets setsOf shared) (pg.1.map Prod.fst)
      some {
        target_players := pg.1.length, game := pg.2,
        total_tournaments := ids.length, shared_tournaments := shared.length,
        head_to_head_matches := h2h.length, histories := histories, h2h := h2h }

/-- Seed response resolving two target players in one event of game G. -/
def c8Seed : SeedTournament :=
  { events := [
      { videogame := some ("G"),
        entrants := [
          { participants := [{ player := { id := 10, gamerTag := "A" } }] },
          { participants := [{ player := { id := 20, gamerTag := "B" } }] }] }] }

/-! ## Theorems -/

/-! ### Generic lemmas about the dict model -/

theorem foldl_preserve {α β : Type} (P : α → Prop) {f : α → β → α}
    (hf : ∀ a b, P a → P (f a b)) :
    ∀ (l : List β) (a : α), P a → P (List.foldl f a l) := by
  intro l
  induction l with
  | nil => intro a ha; simpa using ha
  | cons b t ih =>
    intro a ha
    simpa using ih (f a b) (hf a b ha)

theorem alookup_dinsert_self {α β : Type} [DecidableEq α] (l : List (α × β)) (k : α) (v : β) :
    alookup (dinsert l k v) k = some v := by
  induction l with
  | nil => simp [dinsert, alookup]
  | cons kv t ih =>
    by_cases h : kv.1 = k
    · simp [dinsert, h, alookup]
    · simp [dinsert, h, alookup, ih]

theorem alookup_dinsert_ne {α β : Type} [DecidableEq α] (l : List (α × β)) (k k' : α) (v : β)
    (hne : k' ≠ k) : alookup (dinsert l k v) k' = alookup l k' := by
  induction l with
  | nil => simp [dinsert, alookup, Ne.symm hne]
  | cons kv t ih =>
    rw [dinsert]
    by_cases h : kv.1 = k
    · rw [if_pos h]
      simp only [alookup]
      have h1 : ¬ k = k' := fun hh => hne hh.symm
      have h2 : ¬ kv.1 = k' := by rw [h]; exact h1
      rw [if_neg h1, if_neg h2]
    · rw [if_neg h]
      simp only [alookup]
      by_cases h2 : kv.1 = k'
      · rw [if_pos h2, if_pos h2]
      · rw [if_neg h2, if_neg h2, ih]

theorem mem_keys_dinsert {α β : Type} [DecidableEq α] (l : List (α × β)) (k k' : α) (v : β) :
    k' ∈ (dinsert l k v).map Prod.fst ↔ k' = k ∨ k' ∈ l.map Prod.fst := by
  induction l with
  | nil => simp [dinsert]
  | cons kv t ih =>
    by_cases h : kv.1 = k
    · subst h
      simp [dinsert]
    · simp [dinsert, h, ih]
      tauto

theorem nodup_keys_dinsert {α β : Type} [DecidableEq α] (l : List (α × β)) (k : α) (v : β) :
    (l.map Prod.fst).Nodup → ((dinsert l k v).map Prod.fst).Nodup := by
  induction l with
  | nil => intro _; simp [dinsert]
  | cons kv t ih =>
    intro h
    rw [dinsert]
    by_cases hk : kv.1 = k
    · rw [if_pos hk]
      simp only [List.map_cons, List.nodup_cons] at h ⊢
      rw [hk] at h
      exact h
    · rw [if_neg hk]
      simp only [List.map_cons, List.nodup_cons] at h ⊢
      refine ⟨?_, ih h.2⟩
      intro hmem
      rcases (mem_keys_dinsert t k kv.1 v).mp hmem with he | he
      · exact hk he
      · exact h.1 he

theorem alookup_eq_none_iff {α β : Type} [DecidableEq α] (l : List (α × β)) (k : α) :
    alookup l k = none ↔ k ∉ l.map Prod.fst := by
  induction l with
  | nil => simp [alookup]
  | cons kv t ih =>
    by_cases h : kv.1 = k
    · simp [alookup, h]
    · simp [alookup, h, ih, Ne.symm h]

theorem alookup_dictUpdate {α β : Type} [DecidableEq α] (extra : List (α × β)) :
    ∀ (base : List (α × β)) (k : α), (extra.map Prod.fst).Nodup →
      alookup (dictUpdate base extra) k = ofirst (alookup extra k) (alookup base k) := by
  induction extra with
  | nil => intro base k _; simp [dictUpdate, alookup, ofirst]
  | cons kv t ih =>
    intro base k hnd
    simp only [List.map_cons, List.nodup_cons] at hnd
    have step : dictUpdate base (kv :: t) = dictUpdate (dinsert base kv.1 kv.2) t := by
      simp [dictUpdate]
    rw [step, ih (dinsert base kv.1 kv.2) k hnd.2]
    by_cases h : k = kv.1
    · rw [h]
      have ht : alookup t kv.1 = none := (alookup_eq_none_iff t kv.1).mpr hnd.1
      rw [ht, alookup_dinsert_self]
      simp [alookup, ofirst]
    · rw [alookup_dinsert_ne base kv.1 k kv.2 h]
      have h2 : ¬ kv.1 = k := fun hh => h hh.symm
      simp [alookup, h2]

/-! ### C4 lemmas and theorems -/

theorem makeSafeRequestGo_shift {α : Type} (r : ApiResult α) (resps : Nat → ApiResult α) :
    ∀ (fuel i : Nat),
      makeSafeRequestGo (oracleCons r resps) (i + 1) fuel = makeSafeRequestGo resps i fuel := by
  intro fuel
  induction fuel with
  | zero => intro i; rfl
  | succ n ih =>
    intro i
    show makeSafeRequestGo (oracleCons r resps) (i + 1) (n + 1) = makeSafeRequestGo resps i (n + 1)
    rw [makeSafeRequestGo, makeSafeRequestGo]
    have hc : oracleCons r resps (i + 1) = resps i := rfl
    rw [hc]
    cases resps i <;> simp [ih]

/-- C4 (amended): in `make_safe_request` an HTTP 429 response consumes one
iteration of the `for attempt in range(retries)` loop exactly like any other
retried outcome: prepending a rate-limited response to the stream requires
one extra unit of retry budget to leave the overall result unchanged.  The
sleep before that retry is the `Retry-After` header value, defaulting to
60 s when absent. -/
theorem c4_rate_limited_consumes_attempt {α : Type} (resps : Nat → ApiResult α)
    (retries : Nat) (retryAfter : Option Nat) :
    make_safe_request (oracleCons (ApiResult.rateLimited retryAfter) resps) (retries + 1)
      = make_safe_request resps retries ∧ retryAfterSleep none = 60 := by
  constructor
  · show makeSafeRequestGo (oracleCons (ApiResult.rateLimited retryAfter) resps) 0 (retries + 1)
      = makeSafeRequestGo resps 0 retries
    rw [makeSafeRequestGo]
    exact makeSafeRequestGo_shift (ApiResult.rateLimited retryAfter) resps retries 0
  · rfl

/-- C4 (counterexample to the claim as stated): with the default budget of
3 attempts, a stream of three 429 responses followed by a success returns
None — the three rate-limit waits exhausted the whole budget — while the
same stream with one fewer leading 429 succeeds.  If a 429 were "not charged
against the retry attempt counter", removing one could not turn failure into
success. -/
theorem c4_counterexample :
    make_safe_request c4Oracle 3 = none ∧
      make_safe_request (fun i => c4Oracle (i + 1)) 3 = some 7 := by
  exact ⟨rfl, rfl⟩

/-! ### C1 lemmas and theorems -/

theorem rateInterval_pos : 0 < rateInterval := by
  norm_num [rateInterval]

theorem slotStart_ge (last arrive : ℚ) : last + rateInterval ≤ slotStart last arrive := by
  rw [slotStart]
  split
  · exact le_refl _
  · linarith [not_lt.mp (by assumption : ¬ arrive - last < rateInterval)]

theorem limiterRun_completed_lb :
    ∀ (trace : List (ℚ × PostOutcome)) (last : ℚ),
      (∀ p ∈ trace, 0 ≤ durOf p.2) →
      (∀ s ∈ completedStarts (limiterRun last trace), last + rateInterval ≤ s) ∧
        spaced (completedStarts (limiterRun last trace)) := by
  intro trace
  induction trace with
  | nil =>
    intro last _
    constructor
    · intro s hs; simp [limiterRun, completedStarts] at hs
    · simp [limiterRun, completedStarts, spaced]
  | cons p rest ih =>
    intro last hdur
    have hdrest : ∀ q ∈ rest, 0 ≤ durOf q.2 := fun q hq => hdur q (List.mem_cons_of_mem p hq)
    obtain ⟨arrive, out⟩ := p
    cases out with
    | completes d =>
      have hd : 0 ≤ d := by
        have := hdur (arrive, PostOutcome.completes d) (List.mem_cons_self _ _)
        simpa [durOf] using this
      have hrun : limiterRun last ((arrive, PostOutcome.completes d) :: rest)
          = (slotStart last arrive, true) :: limiterRun (slotStart last arrive + d) rest := by
        simp [limiterRun]
      have hcs : completedStarts (limiterRun last ((arrive, PostOutcome.completes d) :: rest))
          = slotStart last arrive :: completedStarts (limiterRun (slotStart last arrive + d) rest) := by
        rw [hrun]; simp [completedStarts]
      have hstart := slotStart_ge last arrive
      obtain ⟨ihlb, ihsp⟩ := ih (slotStart last arrive + d) hdrest
      constructor
      · intro s hs
        rw [hcs] at hs
        rcases List.mem_cons.mp hs with h | h
        · exact h ▸ hstart
        · have := ihlb s h
          have hri := rateInterval_pos
          linarith
      · rw [hcs, spaced, List.chain'_cons']
        constructor
        · intro y hy
          have hmem : y ∈ completedStarts (limiterRun (slotStart last arrive + d) rest) :=
            List.mem_of_mem_head? hy
          have := ihlb y hmem
          linarith
        · exact ihsp
    | raises d =>
      have hrun : limiterRun last ((arrive, PostOutcome.raises d) :: rest)
          = (slotStart last arrive, false) :: limiterRun last rest := by
        simp [limiterRun]
      have hcs : completedStarts (limiterRun last ((arrive, PostOutcome.raises d) :: rest))
          = completedStarts (limiterRun last rest) := by
        rw [hrun]; simp [completedStarts]
      obtain ⟨ihlb, ihsp⟩ := ih last hdrest
      rw [hcs]
      exact ⟨ihlb, ihsp⟩

/-- C1 (amended): serialized through the single rate-limit lock, the start
instants of any two consecutive posts that RETURN A RESPONSE are at least
the configured 0.6 s apart, for every trace of lock acquisitions and
non-negative post durations; every such post — including one answered with
a 4xx/429/5xx status — records its completion instant as the new last-call
time on line 57, before any status handling.  (The original claim over ALL
permitted calls fails only on the narrower exception surface: a post whose
`requests.post` call itself raises — transport error or timeout — records
no last-call time, see the counterexample.) -/
theorem c1_completed_spacing (trace : List (ℚ × PostOutcome)) (last : ℚ)
    (hdur : ∀ p ∈ trace, 0 ≤ durOf p.2) :
    spaced (completedStarts (limiterRun last trace)) :=
  (limiterRun_completed_lb trace last hdur).2

/-- C1 witness: the spacing theorem applied to the concrete two-call trace
`c1WTrace` starting from last-call time 0. -/
theorem c1_witness : spaced (completedStarts (limiterRun 0 c1WTrace)) :=
  c1_completed_spacing c1WTrace 0 (by intro p hp; fin_cases hp <;> norm_num [durOf])

/-- C1 (counterexample to the claim as stated): a legal serialized trace —
the second lock acquisition happens after the first post's exception
releases the lock, all durations non-negative — in which the two permitted
posts start only 0.45 s apart, below the 0.6 s interval, because the first
post's `requests.post` call itself raised (a transport error), skipping
line 57, so no last-call time was recorded for it. -/
theorem c1_counterexample :
    (∀ p ∈ c1Trace, 0 ≤ durOf p.2) ∧
      (100 : ℚ) + 1 / 20 ≤ 2009 / 20 ∧
      (limiterRun 0 c1Trace).map Prod.fst = [100, 2009 / 20] ∧
      ¬ spaced ((limiterRun 0 c1Trace).map Prod.fst) := by
  have hmap : (limiterRun 0 c1Trace).map Prod.fst = [100, 2009 / 20] := by
    norm_num [c1Trace, limiterRun, slotStart, rateInterval]
  refine ⟨?_, by norm_num, hmap, ?_⟩
  · intro p hp
    fin_cases hp <;> norm_num [durOf]
  · intro h
    rw [hmap, spaced, List.chain'_cons] at h
    have h1 := h.1
    norm_num [rateInterval] at h1

/-! ### C3 lemmas and theorems -/

theorem nodup_keys_processSetNodes (tg : Option String) (oya ct : Int) (nodes : List SetNode)
    (acc : List (Nat × TournInfo)) (h : (acc.map Prod.fst).Nodup) :
    ((processSetNodes tg oya ct acc nodes).map Prod.fst).Nodup := by
  unfold processSetNodes
  refine foldl_preserve (fun l => (l.map Prod.fst).Nodup) ?_ nodes acc h
  intro a n ha
  dsimp only
  split
  · exact nodup_keys_dinsert a n.tid _ ha
  · exact ha

theorem nodup_keys_additional_pages (tg : Option String) (oya ct : Int)
    (pageOf : Nat → Option PlayerSetsPage) (totalPages : Nat) :
    ((get_additional_player_sets_pages tg oya ct pageOf totalPages).map Prod.fst).Nodup := by
  unfold get_additional_player_sets_pages
  have hf : ∀ (a : List (Nat × TournInfo)) (page : Nat),
      ((a.map Prod.fst).Nodup) →
      ((((fun (acc : List (Nat × TournInfo)) (page : Nat) =>
            match pageOf page with
            | none => acc
            | some pr => processSetNodes tg oya ct acc pr.nodes) a page).map Prod.fst).Nodup) := by
    intro a page ha
    dsimp only
    cases pageOf page with
    | none => exact ha
    | some pr => exact nodup_keys_processSetNodes tg oya ct pr.nodes a ha
  exact foldl_preserve (fun l => (l.map Prod.fst).Nodup) hf _ [] List.nodup_nil

/-- C3 (amended): when a tournament identifier reappears on a later page of
a competitor's paginated fetch, the LATER page's slug/name/date values win:
`tournaments.update(additional_tournaments)` on line 286 has dict.update
semantics, so the merged map answers every lookup from the additional-pages
dict first and falls back to the page-1 dict only for ids the later pages
did not produce. -/
theorem c3_later_page_wins (tg : Option String) (oya ct : Int) (r : PlayerSetsPage1)
    (pageOf : Nat → Option PlayerSetsPage) (k : Nat) (h : 1 < r.totalPages) :
    alookup (get_player_tournaments_simple tg oya ct (some r) pageOf) k
      = ofirst (alookup (get_additional_player_sets_pages tg oya ct pageOf r.totalPages) k)
          (alookup (processSetNodes tg oya ct [] r.nodes) k) := by
  show alookup
      (if 1 < r.totalPages then
        dictUpdate (processSetNodes tg oya ct [] r.nodes)
          (get_additional_player_sets_pages tg oya ct pageOf r.totalPages)
      else processSetNodes tg oya ct [] r.nodes) k = _
  rw [if_pos h]
  exact alookup_dictUpdate _ _ k (nodup_keys_additional_pages tg oya ct pageOf r.totalPages)

/-- C3 witness: the lookup decomposition applied to the concrete two-page
fetch `c3Page1` / `c3PageOf` at tournament id 5. -/
theorem c3_witness :
    alookup (get_player_tournaments_simple (some ("G")) 0 1000 (some c3Page1) c3PageOf) 5
      = ofirst (alookup (get_additional_player_sets_pages (some ("G")) 0 1000 c3PageOf c3Page1.totalPages) 5)
          (alookup (processSetNodes (some ("G")) 0 1000 [] c3Page1.nodes) 5) :=
  c3_later_page_wins (some ("G")) 0 1000 c3Page1 c3PageOf 5 (by decide)

/-- C3 (counterexample to the claim as stated): tournament id 5 appears on
page 1 with slug "a"/name "n1"/date 10 and again on page 2 with slug
"b"/name "n2"/date 20; the merged map holds the PAGE-2 values, so the first
occurrence did not win. -/
theorem c3_counterexample :
    alookup (get_player_tournaments_simple (some ("G")) 0 1000 (some c3Page1) c3PageOf) 5
        = some { slug := "b", name := "n2", date := 20 } ∧
      ({ slug := "b", name := "n2", date := 20 } : TournInfo)
        ≠ { slug := "a", name := "n1", date := 10 } := by
  decide

/-! ### C2 / C10 theorems about `get_set_score` -/

/-- C2 (amended): the score string of `get_set_score` is built in SLOT
order — slot 1's numeric score first, slot 2's second (lines 672-674) —
regardless of which slot holds the winner; the winner is never consulted. -/
theorem c2_slot_order_score (s0 s1 : ScoreSlot) (a b : Int)
    (h0 : slotScoreValue s0 = Except.ok (some a))
    (h1 : slotScoreValue s1 = Except.ok (some b)) :
    get_set_score (some { slots := [s0, s1] }) = Except.ok (toString a ++ "-" ++ toString b) := by
  simp only [get_set_score]
  rw [h0, h1]
  simp [pyShow]

/-- C2 witness: the slot-order formatting on the concrete response with
slot scores 1 and 3. -/
theorem c2_witness :
    get_set_score (some { slots := [scoreSlotVal 1, scoreSlotVal 3] })
      = Except.ok (toString (1 : Int) ++ "-" ++ toString (3 : Int)) :=
  c2_slot_order_score (scoreSlotVal 1) (scoreSlotVal 3) 1 3 rfl rfl

/-- C2 (counterexample to the claim as stated): in `c2Set` the winner
(player 20, slot 2, placement 1) scored 3 and the loser (player 10, slot 1)
scored 1; the fetched score response `c2ScoreResp` renders "1-3" and that is
the score carried by the emitted outcome, while the spec's winner-first
format would be "3-1". -/
theorem c2_counterexample :
    get_set_score (some c2ScoreResp) = Except.ok "1-3" ∧
      Option.map H2HMatch.winner_id
          (analyze_set_for_h2h (fun _ => "D") c2Set [10, 20] cTourney "1-3") = some 20 ∧
      Option.map H2HMatch.score
          (analyze_set_for_h2h (fun _ => "D") c2Set [10, 20] cTourney "1-3") = some "1-3" ∧
      specWinnerFirstScore 3 1 = "3-1" ∧
      ("1-3" : String) ≠ "3-1" :=
  ⟨rfl, rfl, rfl, rfl, by decide⟩

/-- C10 (amended): `get_set_score` yields the fallback "0-0" when the
request fails (or the data/set guard is falsy) and when the slot count is
not exactly two; a score whose KEY PATH is absent defaults to 0 per slot;
and a genuine 0-0 result renders the identical "0-0" string.  (A JSON-null
score value does NOT default to 0 — see the counterexample.) -/
theorem c10_score_fallbacks :
    get_set_score none = Except.ok "0-0" ∧
      (∀ r : SetScoreResp, r.slots.length ≠ 2 → get_set_score (some r) = Except.ok "0-0") ∧
      (∀ s : ScoreSlot, s.standing = JField.absent → slotScoreValue s = Except.ok (some 0)) ∧
      get_set_score (some c10ZeroResp) = Except.ok "0-0" := by
  refine ⟨rfl, ?_, ?_, rfl⟩
  · intro r h
    rcases r with ⟨slots⟩
    rcases slots with _ | ⟨a, _ | ⟨b, _ | ⟨c, t⟩⟩⟩
    · rfl
    · rfl
    · exact absurd rfl h
    · rfl
  · intro s h
    rcases s with ⟨st⟩
    cases st with
    | absent => rfl
    | null => exact JField.noConfusion h
    | val x => exact JField.noConfusion h

/-- C10 witness: the fallback theorem applied to a one-slot response and to
a slot with no standing key. -/
theorem c10_witness :
    get_set_score (some c10OneSlot) = Except.ok "0-0" ∧
      slotScoreValue c10AbsentSlot = Except.ok (some 0) :=
  ⟨c10_score_fallbacks.2.1 c10OneSlot (by decide), c10_score_fallbacks.2.2.1 c10AbsentSlot rfl⟩

/-- C10 (counterexample to the claim as stated): a slot whose score value is
an explicit JSON null does not default to 0: `dict.get("value", 0)` returns
the stored None, and the emitted string is "None-3" — neither the claimed
"0-0" nor a zero-defaulted "0-3". -/
theorem c10_counterexample :
    get_set_score (some c10Resp) = Except.ok "None-3" ∧
      ("None-3" : String) ≠ "0-0" ∧ ("None-3" : String) ≠ "0-3" :=
  ⟨rfl, by decide, by decide⟩

/-! ### Lemmas about `collectTargets` (used by C6, C7, C9) -/

theorem mem_dinsert {α β : Type} [DecidableEq α] (l : List (α × β)) (k : α) (v : β)
    (kv : α × β) : kv ∈ dinsert l k v → kv = (k, v) ∨ kv ∈ l := by
  induction l with
  | nil => intro h; simp [dinsert] at h; exact Or.inl h
  | cons kv' t ih =>
    intro h
    rw [dinsert] at h
    by_cases hk : kv'.1 = k
    · rw [if_pos hk] at h
      rcases List.mem_cons.mp h with h1 | h1
      · exact Or.inl h1
      · exact Or.inr (List.mem_cons_of_mem _ h1)
    · rw [if_neg hk] at h
      rcases List.mem_cons.mp h with h1 | h1
      · exact Or.inr (h1 ▸ List.mem_cons_self _ _)
      · rcases ih h1 with h2 | h2
        · exact Or.inl h2
        · exact Or.inr (List.mem_cons_of_mem _ h2)

theorem collectTargets_good (targets : List Nat) (slots : List SlotObj) :
    (∀ kv ∈ collectTargets targets slots, kv.2.pid = kv.1) ∧
      ((collectTargets targets slots).map Prod.fst).Nodup := by
  have hpart : ∀ (st : Option SlotStanding) (a : List (Nat × PlayerDetail)) (part : ParticipantObj),
      ((∀ kv ∈ a, kv.2.pid = kv.1) ∧ (a.map Prod.fst).Nodup) →
      ((∀ kv ∈ collectPart targets st a part, kv.2.pid = kv.1) ∧
        ((collectPart targets st a part).map Prod.fst).Nodup) := by
    intro st a part ha
    obtain ⟨player⟩ := part
    unfold collectPart
    dsimp only
    cases player with
    | none => exact ha
    | some pl =>
      obtain ⟨plid, ptag⟩ := pl
      dsimp only
      cases plid with
      | none => exact ha
      | some pid =>
        dsimp only
        by_cases hmem : pid ∈ targets
        · rw [if_pos hmem]
          constructor
          · intro kv hkv
            rcases mem_dinsert _ _ _ _ hkv with h1 | h1
            · rw [h1]
            · exact ha.1 kv h1
          · exact nodup_keys_dinsert _ _ _ ha.2
        · rw [if_neg hmem]
          exact ha
  have hslot : ∀ (a : List (Nat × PlayerDetail)) (slot : SlotObj),
      ((∀ kv ∈ a, kv.2.pid = kv.1) ∧ (a.map Prod.fst).Nodup) →
      ((∀ kv ∈ collectSlot targets a slot, kv.2.pid = kv.1) ∧
        ((collectSlot targets a slot).map Prod.fst).Nodup) := by
    intro a slot ha
    obtain ⟨entrant, standing⟩ := slot
    unfold collectSlot
    dsimp only
    cases entrant with
    | none => exact ha
    | some e =>
      exact foldl_preserve
        (fun (l : List (Nat × PlayerDetail)) => (∀ kv ∈ l, kv.2.pid = kv.1) ∧ (l.map Prod.fst).Nodup)
        (hpart standing) e.participants a ha
  have hnil : (∀ kv ∈ ([] : List (Nat × PlayerDetail)), kv.2.pid = kv.1) ∧
      ((([] : List (Nat × PlayerDetail)).map Prod.fst)).Nodup := by
    constructor
    · intro kv hkv
      exact absurd hkv (List.not_mem_nil kv)
    · simp
  unfold collectTargets
  exact foldl_preserve
    (fun (l : List (Nat × PlayerDetail)) => (∀ kv ∈ l, kv.2.pid = kv.1) ∧ (l.map Prod.fst).Nodup)
    hslot slots [] hnil

theorem mem_keys_collectPart (targets : List Nat) (st : Option SlotStanding)
    (a : List (Nat × PlayerDetail)) (part : ParticipantObj) (k : Nat) :
    k ∈ (collectPart targets st a part).map Prod.fst ↔
      k ∈ a.map Prod.fst ∨ pickTarget targets part = some k := by
  obtain ⟨player⟩ := part
  unfold collectPart pickTarget
  dsimp only
  cases player with
  | none => simp
  | some pl =>
    obtain ⟨plid, ptag⟩ := pl
    dsimp only
    cases plid with
    | none => simp
    | some pid =>
      dsimp only
      by_cases hmem : pid ∈ targets
      · rw [if_pos hmem, if_pos hmem, mem_keys_dinsert]
        constructor
        · rintro (h | h)
          · exact Or.inr (by rw [h])
          · exact Or.inl h
        · rintro (h | h)
          · exact Or.inr h
          · exact Or.inl (Option.some.inj h).symm
      · rw [if_neg hmem, if_neg hmem]
        simp

theorem mem_keys_partsFold (targets : List Nat) (st : Option SlotStanding) (k : Nat) :
    ∀ (parts : List ParticipantObj) (a : List (Nat × PlayerDetail)),
      k ∈ ((parts.foldl (collectPart targets st) a).map Prod.fst) ↔
        k ∈ a.map Prod.fst ∨ k ∈ parts.filterMap (pickTarget targets) := by
  intro parts
  induction parts with
  | nil => intro a; simp
  | cons part rest ih =>
    intro a
    rw [List.foldl_cons, ih (collectPart targets st a part), mem_keys_collectPart]
    simp only [List.mem_filterMap, List.mem_cons]
    constructor
    · rintro ((h | h) | ⟨x, hx, hpx⟩)
      · exact Or.inl h
      · exact Or.inr ⟨part, Or.inl rfl, h⟩
      · exact Or.inr ⟨x, Or.inr hx, hpx⟩
    · rintro (h | ⟨x, hx | hx, hpx⟩)
      · exact Or.inl (Or.inl h)
      · exact Or.inl (Or.inr (hx ▸ hpx))
      · exact Or.inr ⟨x, hx, hpx⟩

theorem mem_keys_collectSlot (targets : List Nat) (a : List (Nat × PlayerDetail))
    (slot : SlotObj) (k : Nat) :
    k ∈ (collectSlot targets a slot).map Prod.fst ↔
      k ∈ a.map Prod.fst ∨ k ∈ slotTargetIds targets slot := by
  obtain ⟨entrant, standing⟩ := slot
  unfold collectSlot slotTargetIds
  dsimp only
  cases entrant with
  | none => simp
  | some e => exact mem_keys_partsFold targets standing k e.participants a

theorem mem_keys_collectTargets (targets : List Nat) (k : Nat) :
    ∀ (slots : List SlotObj) (a : List (Nat × PlayerDetail)),
      k ∈ ((slots.foldl (collectSlot targets) a).map Prod.fst) ↔
        k ∈ a.map Prod.fst ∨ k ∈ slots.flatMap (slotTargetIds targets) := by
  intro slots
  induction slots with
  | nil => intro a; simp
  | cons slot rest ih =>
    intro a
    rw [List.foldl_cons, ih (collectSlot targets a slot), mem_keys_collectSlot]
    simp only [List.flatMap_cons, List.mem_append]
    tauto

theorem analyze_some_shape (fmt : Int → String) (s : SetData) (targets : List Nat)
    (t : SetsTournament) (sc : String) (m : H2HMatch)
    (hm : analyze_set_for_h2h fmt s targets t sc = some m) :
    s.slots.length = 2 ∧
      ∃ id1 p1 id2 p2, collectTargets targets s.slots = [(id1, p1), (id2, p2)] := by
  by_cases h2 : s.slots.length = 2
  swap
  · rw [analyze_set_for_h2h, if_neg h2] at hm
    exact Option.noConfusion hm
  refine ⟨h2, ?_⟩
  rw [analyze_set_for_h2h, if_pos h2] at hm
  rcases hcol : collectTargets targets s.slots with _ | ⟨⟨id1, p1⟩, tl⟩
  · rw [hcol] at hm; exact Option.noConfusion hm
  rcases tl with _ | ⟨⟨id2, p2⟩, tl2⟩
  · rw [hcol] at hm; exact Option.noConfusion hm
  rcases tl2 with _ | ⟨x, tl3⟩
  · exact ⟨id1, p1, id2, p2, rfl⟩
  · rw [hcol] at hm; exact Option.noConfusion hm

theorem analyze_some_card (fmt : Int → String) (s : SetData) (targets : List Nat)
    (t : SetsTournament) (sc : String) (m : H2HMatch)
    (hm : analyze_set_for_h2h fmt s targets t sc = some m) :
    (setTargetIds targets s.slots).card = 2 ∧ s.slots.length = 2 := by
  obtain ⟨h2, id1, p1, id2, p2, hcol⟩ := analyze_some_shape fmt s targets t sc m hm
  have hgood := (collectTargets_good targets s.slots).2
  rw [hcol] at hgood
  have hne : id1 ≠ id2 := by
    simp only [List.map_cons, List.map_nil, List.nodup_cons] at hgood
    intro he
    exact hgood.1 (by simp [he])
  rw [collectTargets] at hcol
  have hmemiff : ∀ x, x ∈ setTargetIds targets s.slots ↔ (x = id1 ∨ x = id2) := by
    intro x
    rw [setTargetIds, List.mem_toFinset]
    have hmk := mem_keys_collectTargets targets x s.slots []
    rw [hcol] at hmk
    simp only [List.map_cons, List.map_nil, List.mem_cons, List.not_mem_nil,
      or_false, false_or] at hmk
    exact hmk.symm
  have hset : setTargetIds targets s.slots = ({id1, id2} : Finset Nat) := by
    apply Finset.ext
    intro x
    rw [hmemiff x]
    simp
  refine ⟨?_, h2⟩
  rw [hset, Finset.card_insert_of_not_mem (by simp [hne]), Finset.card_singleton]

/-- C6 (amended): the extractor emits an outcome only when EXACTLY TWO
distinct target competitor ids appear among the two slots' entrant
participants — but with no constraint on how the two ids are distributed
over the slots: both targets inside one team slot, or a target appearing in
both slots, still count as a qualifying pair (see the counterexample). -/
theorem c6_exactly_two_targets (fmt : Int → String) (s : SetData) (targets : List Nat)
    (t : SetsTournament) (sc : String) (m : H2HMatch)
    (hm : analyze_set_for_h2h fmt s targets t sc = some m) :
    (setTargetIds targets s.slots).card = 2 ∧ s.slots.length = 2 :=
  analyze_some_card fmt s targets t sc m hm

/-- C6 witness: the two-distinct-targets condition holds on the clean
one-target-per-slot match `c6WSet`, whose analysis emits an outcome. -/
theorem c6_witness :
    (setTargetIds [10, 20] c6WSet.slots).card = 2 ∧ c6WSet.slots.length = 2 :=
  c6_exactly_two_targets (fun _ => "D") c6WSet [10, 20] cTourney "3-1"
    { player1_id := 10, player1_tag := "A", player2_id := 20, player2_tag := "B",
      winner_id := 10, winner_tag := "A", loser_id := 20, loser_tag := "B",
      score := "3-1", set_id := 79, tournament_name := "T", tournament_date := "D" }
    rfl

/-- C6 (counterexample to the claim as stated): in `c6Set` both target ids
sit in slot 1 (a team entrant) and none in slot 2, yet the extractor still
emits an outcome — the "one in each slot" restriction does not hold. -/
theorem c6_counterexample :
    List.map (fun sl => (slotTargetIds [10, 20] sl).length) c6Set.slots = [2, 0] ∧
      (analyze_set_for_h2h (fun _ => "D") c6Set [10, 20] cTourney "s").isSome = true := by
  exact ⟨rfl, rfl⟩

/-- C7 (amended): whenever the extractor emits an outcome, the winner is a
competitor whose recorded placement (the placement of the last slot
containing that target) is 1; consequently a match in which no collected
target has placement 1 is excluded.  When BOTH slots carry placement 1 the
match is NOT excluded — an outcome is still emitted (see counterexample). -/
theorem c7_winner_recorded_placement (fmt : Int → String) (s : SetData) (targets : List Nat)
    (t : SetsTournament) (sc : String) (m : H2HMatch)
    (hm : analyze_set_for_h2h fmt s targets t sc = some m) :
    recordedPlacement targets s.slots m.winner_id = some (some 1) := by
  obtain ⟨h2, id1, p1, id2, p2, hcol⟩ := analyze_some_shape fmt s targets t sc m hm
  have hgood := collectTargets_good targets s.slots
  have hp1id : p1.pid = id1 :=
    hgood.1 (id1, p1) (by rw [hcol]; exact List.mem_cons_self _ _)
  have hp2id : p2.pid = id2 :=
    hgood.1 (id2, p2) (by rw [hcol]; simp)
  have hne : id1 ≠ id2 := by
    have hnd := hgood.2
    rw [hcol] at hnd
    simp only [List.map_cons, List.map_nil, List.nodup_cons] at hnd
    intro he
    exact hnd.1 (by simp [he])
  rw [analyze_set_for_h2h, if_pos h2, hcol] at hm
  dsimp only at hm
  by_cases hp1 : p1.placement = some 1
  · rw [if_pos hp1] at hm
    dsimp only at hm
    by_cases h0 : p1.pid = 0
    · rw [if_pos h0] at hm; exact Option.noConfusion hm
    · rw [if_neg h0, if_pos hp1id.symm] at hm
      have hm2 := Option.some.inj hm
      have hw : m.winner_id = p1.pid := by rw [← hm2]
      rw [recordedPlacement, hcol, hw, hp1id]
      simp [alookup, hp1]
  · rw [if_neg hp1] at hm
    by_cases hp2 : p2.placement = some 1
    · rw [if_pos hp2] at hm
      dsimp only at hm
      by_cases h0 : p2.pid = 0
      · rw [if_pos h0] at hm; exact Option.noConfusion hm
      · have hid1ne : id1 ≠ p2.pid := by rw [hp2id]; exact hne
        rw [if_neg h0, if_neg hid1ne] at hm
        have hm2 := Option.some.inj hm
        have hw : m.winner_id = p2.pid := by rw [← hm2]
        rw [recordedPlacement, hcol, hw, hp2id]
        have hne2 : ¬ id1 = id2 := hne
        simp [alookup, hne2, hp2]
    · rw [if_neg hp2] at hm
      exact Option.noConfusion hm

/-- C7 witness: on `c7WSet` (placements 2 and 1) the emitted winner is
player 20, whose recorded placement is 1. -/
theorem c7_witness :
    recordedPlacement [10, 20] c7WSet.slots
      (H2HMatch.winner_id
        { player1_id := 10, player1_tag := "A", player2_id := 20, player2_tag := "B",
          winner_id := 20, winner_tag := "B", loser_id := 10, loser_tag := "A",
          score := "s", set_id := 81, tournament_name := "T", tournament_date := "D" })
      = some (some 1) :=
  c7_winner_recorded_placement (fun _ => "D") c7WSet [10, 20] cTourney "s"
    { player1_id := 10, player1_tag := "A", player2_id := 20, player2_tag := "B",
      winner_id := 20, winner_tag := "B", loser_id := 10, loser_tag := "A",
      score := "s", set_id := 81, tournament_name := "T", tournament_date := "D" }
    rfl

/-- C7 (counterexample to the claim as stated): in `c7Set` BOTH slots carry
placement 1, yet an outcome IS emitted (the code takes the first collected
player with placement 1 as the winner) — the match is not excluded. -/
theorem c7_counterexample :
    Option.map (fun sl => sl.standing) (List.head? c7Set.slots) = some (some { placement := some 1 }) ∧
      Option.map (fun sl => sl.standing) (List.getLast? c7Set.slots) = some (some { placement := some 1 }) ∧
      (analyze_set_for_h2h (fun _ => "D") c7Set [10, 20] cTourney "s").isSome = true := by
  exact ⟨rfl, rfl, rfl⟩

/-- C9 (amended): a bye slot (absent entrant) contributes no competitor ids
at all, and a two-slot match containing a bye produces no outcome whenever
at most one distinct target id appears in the match; the model is a total
function, so processing never raises.  A bye match is NOT always excluded:
when the other slot alone carries two distinct target ids (a team entrant),
an outcome is still emitted (see the counterexample). -/
theorem c9_bye_contributes_nothing (fmt : Int → String) (s : SetData) (targets : List Nat)
    (t : SetsTournament) (sc : String) (a b : SlotObj)
    (_hs : s.slots = [a, b]) (ha : a.entrant = none) :
    slotTargetIds targets a = [] ∧
      ((setTargetIds targets s.slots).card ≤ 1 →
        analyze_set_for_h2h fmt s targets t sc = none) := by
  constructor
  · rw [slotTargetIds, ha]
  · intro hcard
    by_contra hne
    obtain ⟨m, hm⟩ := Option.ne_none_iff_exists'.mp hne
    have := (analyze_some_card fmt s targets t sc m hm).1
    omega

/-- C9 witness: on `c9WSet` (a bye slot plus a single-target slot) the bye
contributes nothing and the match is excluded. -/
theorem c9_witness :
    slotTargetIds [10, 20] byeSlot = [] ∧
      analyze_set_for_h2h (fun _ => "D") c9WSet [10, 20] cTourney "s" = none :=
  ⟨(c9_bye_contributes_nothing (fun _ => "D") c9WSet [10, 20] cTourney "s"
      byeSlot (singleSlot 10 ("A") (some 1)) rfl rfl).1,
   (c9_bye_contributes_nothing (fun _ => "D") c9WSet [10, 20] cTourney "s"
      byeSlot (singleSlot 10 ("A") (some 1)) rfl rfl).2 (by decide)⟩

/-- C9 (counterexample to the claim as stated): `c9Set` contains a bye slot,
yet the extractor emits an outcome, because the other slot is a team entrant
carrying both target ids — a match with a bye slot is not always excluded. -/
theorem c9_counterexample :
    List.head? c9Set.slots = some byeSlot ∧ byeSlot.entrant = none ∧
      (analyze_set_for_h2h (fun _ => "D") c9Set [10, 20] cTourney "s").isSome = true := by
  exact ⟨rfl, rfl, rfl⟩

/-! ### C5 lemmas and theorems -/

theorem nodup_keys_eq_val {α β : Type} [DecidableEq α] :
    ∀ (l : List (α × β)), (l.map Prod.fst).Nodup →
      ∀ {k : α} {v v' : β}, (k, v) ∈ l → (k, v') ∈ l → v = v' := by
  intro l
  induction l with
  | nil => intro _ k v v' h; exact absurd h (List.not_mem_nil _)
  | cons kv t ih =>
    intro hnd k v v' h1 h2
    simp only [List.map_cons, List.nodup_cons] at hnd
    rcases List.mem_cons.mp h1 with e1 | e1
    · rcases List.mem_cons.mp h2 with e2 | e2
      · rw [← e1] at e2
        exact ((Prod.mk.injEq _ _ _ _).mp e2 |>.2).symm
      · exfalso
        apply hnd.1
        have : kv.1 = k := by rw [← e1]
        rw [this]
        exact List.mem_map_of_mem Prod.fst e2
    · rcases List.mem_cons.mp h2 with e2 | e2
      · exfalso
        apply hnd.1
        have : kv.1 = k := by rw [← e2]
        rw [this]
        exact List.mem_map_of_mem Prod.fst e1
      · exact ih hnd.2 e1 e2

theorem bpPhase1_cache_eq : ∀ (b : List (Nat × String)) (st : BPState),
    (bpPhase1 st b).cache = st.cache := by
  intro b
  induction b with
  | nil => intro st; rfl
  | cons ts rest ih =>
    intro st
    rw [bpPhase1]
    cases alookup st.cache ts.2 with
    | some d => rw [ih]
    | none => rw [ih]

theorem bpPhase1_inv : ∀ (b : List (Nat × String)) (st : BPState) (s : String)
    (d : TournamentDetailObj), alookup st.cache s = some d → s ∉ st.requests →
    alookup (bpPhase1 st b).cache s = some d ∧ s ∉ (bpPhase1 st b).requests := by
  intro b
  induction b with
  | nil => intro st s d hc hr; exact ⟨hc, hr⟩
  | cons ts rest ih =>
    intro st s d hc hr
    rw [bpPhase1]
    cases h : alookup st.cache ts.2 with
    | some d' => exact ih _ s d hc hr
    | none =>
      have hne : ts.2 ≠ s := by
        intro he
        rw [he, hc] at h
        exact Option.noConfusion h
      refine ih _ s d hc ?_
      simp only [List.mem_append, List.mem_singleton]
      rintro (h1 | h1)
      · exact hr h1
      · exact hne h1.symm

theorem bpPhase2_inv (net : String → Option TournamentDetailObj) :
    ∀ (b : List (Nat × String)) (st : BPState) (s : String) (d : TournamentDetailObj),
      alookup st.cache s = some d →
      alookup (bpPhase2 net st b).cache s = some d ∧
        (bpPhase2 net st b).requests = st.requests := by
  intro b
  induction b with
  | nil => intro st s d hc; exact ⟨hc, rfl⟩
  | cons ts rest ih =>
    intro st s d hc
    rw [bpPhase2]
    cases h : alookup st.cache ts.2 with
    | some d' => exact ih st s d hc
    | none =>
      have hne : s ≠ ts.2 := by
        intro he
        rw [← he, hc] at h
        exact Option.noConfusion h
      cases hnet : net ts.2 with
      | some dd =>
        have hc2 : alookup (dinsert st.cache ts.2 dd) s = some d := by
          rw [alookup_dinsert_ne st.cache ts.2 s dd hne, hc]
        exact ih _ s d hc2
      | none => exact ih st s d hc

theorem bpPhase1_details_pres : ∀ (b : List (Nat × String)) (st : BPState) (s : String)
    (d : TournamentDetailObj) (tid : Nat),
    alookup st.cache s = some d →
    (∀ p ∈ b, p.1 = tid → p.2 = s) →
    alookup st.details tid = some d →
    alookup (bpPhase1 st b).details tid = some d := by
  intro b
  induction b with
  | nil => intro st s d tid _ _ hd; exact hd
  | cons ts rest ih =>
    intro st s d tid hc hcond hd
    have hcondr : ∀ p ∈ rest, p.1 = tid → p.2 = s :=
      fun p hp => hcond p (List.mem_cons_of_mem ts hp)
    rw [bpPhase1]
    cases h : alookup st.cache ts.2 with
    | some d' =>
      refine ih _ s d tid hc hcondr ?_
      by_cases ht : ts.1 = tid
      · have hts2 : ts.2 = s := hcond ts (List.mem_cons_self _ _) ht
        have hdd : d' = d := by
          rw [hts2, hc] at h
          exact (Option.some.inj h).symm
        rw [ht, hdd, alookup_dinsert_self]
      · rw [alookup_dinsert_ne st.details ts.1 tid d' (fun he => ht he.symm), hd]
    | none => exact ih _ s d tid hc hcondr hd

theorem bpPhase1_details_est : ∀ (b : List (Nat × String)) (st : BPState) (s : String)
    (d : TournamentDetailObj) (tid : Nat),
    alookup st.cache s = some d →
    (∀ p ∈ b, p.1 = tid → p.2 = s) →
    (tid, s) ∈ b →
    alookup (bpPhase1 st b).details tid = some d := by
  intro b
  induction b with
  | nil => intro st s d tid _ _ hmem; exact absurd hmem (List.not_mem_nil _)
  | cons ts rest ih =>
    intro st s d tid hc hcond hmem
    have hcondr : ∀ p ∈ rest, p.1 = tid → p.2 = s :=
      fun p hp => hcond p (List.mem_cons_of_mem ts hp)
    rcases List.mem_cons.mp hmem with he | he
    · rw [bpPhase1, ← he]
      rw [show ((tid, s) : Nat × String).2 = s from rfl, hc]
      refine bpPhase1_details_pres rest _ s d tid hc hcondr ?_
      rw [show ((tid, s) : Nat × String).1 = tid from rfl, alookup_dinsert_self]
    · rw [bpPhase1]
      cases h : alookup st.cache ts.2 with
      | some d' => exact ih _ s d tid hc hcondr he
      | none => exact ih _ s d tid hc hcondr he

theorem bpPhase2_details_pres (net : String → Option TournamentDetailObj) :
    ∀ (b : List (Nat × String)) (st : BPState) (s : String) (d : TournamentDetailObj)
      (tid : Nat),
      alookup st.cache s = some d →
      (∀ p ∈ b, p.1 = tid → p.2 = s) →
      alookup st.details tid = some d →
      alookup (bpPhase2 net st b).details tid = some d := by
  intro b
  induction b with
  | nil => intro st s d tid _ _ hd; exact hd
  | cons ts rest ih =>
    intro st s d tid hc hcond hd
    have hcondr : ∀ p ∈ rest, p.1 = tid → p.2 = s :=
      fun p hp => hcond p (List.mem_cons_of_mem ts hp)
    rw [bpPhase2]
    cases h : alookup st.cache ts.2 with
    | some d' => exact ih st s d tid hc hcondr hd
    | none =>
      have hne : s ≠ ts.2 := by
        intro he
        rw [← he, hc] at h
        exact Option.noConfusion h
      have ht : ts.1 ≠ tid := by
        intro he
        exact hne (hcond ts (List.mem_cons_self _ _) he).symm
      cases hnet : net ts.2 with
      | some dd =>
        have hc2 : alookup (dinsert st.cache ts.2 dd) s = some d := by
          rw [alookup_dinsert_ne st.cache ts.2 s dd hne, hc]
        have hd2 : alookup (dinsert st.details ts.1 dd) tid = some d := by
          rw [alookup_dinsert_ne st.details ts.1 tid dd (fun he => ht he.symm), hd]
        exact ih _ s d tid hc2 hcondr hd2
      | none => exact ih st s d tid hc hcondr hd

theorem bpChunks_inv (net : String → Option TournamentDetailObj) :
    ∀ (bs : List (List (Nat × String))) (st : BPState) (s : String) (d : TournamentDetailObj),
      alookup st.cache s = some d → s ∉ st.requests →
      alookup (bpChunks net st bs).cache s = some d ∧ s ∉ (bpChunks net st bs).requests := by
  intro bs
  induction bs with
  | nil => intro st s d hc hr; exact ⟨hc, hr⟩
  | cons b rest ih =>
    intro st s d hc hr
    rw [bpChunks]
    have h1 := bpPhase1_inv b st s d hc hr
    have h2 := bpPhase2_inv net b (bpPhase1 st b) s d h1.1
    refine ih _ s d h2.1 ?_
    rw [h2.2]
    exact h1.2

theorem bpChunks_details (net : String → Option TournamentDetailObj) :
    ∀ (bs : List (List (Nat × String))) (st : BPState) (s : String) (d : TournamentDetailObj)
      (tid : Nat),
      alookup st.cache s = some d →
      (∀ b ∈ bs, ∀ p ∈ b, p.1 = tid → p.2 = s) →
      ((∃ b ∈ bs, (tid, s) ∈ b) ∨ alookup st.details tid = some d) →
      alookup (bpChunks net st bs).details tid = some d := by
  intro bs
  induction bs with
  | nil =>
    intro st s d tid _ _ hstart
    rcases hstart with ⟨b, hb, _⟩ | hd
    · exact absurd hb (List.not_mem_nil _)
    · exact hd
  | cons b rest ih =>
    intro st s d tid hc hcond hstart
    have hcondb : ∀ p ∈ b, p.1 = tid → p.2 = s := hcond b (List.mem_cons_self _ _)
    have hcondr : ∀ b' ∈ rest, ∀ p ∈ b', p.1 = tid → p.2 = s :=
      fun b' hb' => hcond b' (List.mem_cons_of_mem b hb')
    rw [bpChunks]
    have hc1 : alookup (bpPhase1 st b).cache s = some d := by
      rw [bpPhase1_cache_eq b st]; exact hc
    have hc2 := (bpPhase2_inv net b (bpPhase1 st b) s d hc1).1
    rcases hstart with ⟨b', hb', hmemb⟩ | hd
    · rcases List.mem_cons.mp hb' with he | he
      · have hest : alookup (bpPhase1 st b).details tid = some d :=
          bpPhase1_details_est b st s d tid hc hcondb (he ▸ hmemb)
        have hest2 : alookup (bpPhase2 net (bpPhase1 st b) b).details tid = some d :=
          bpPhase2_details_pres net b (bpPhase1 st b) s d tid hc1 hcondb hest
        exact ih _ s d tid hc2 hcondr (Or.inr hest2)
      · exact ih _ s d tid hc2 hcondr (Or.inl ⟨b', he, hmemb⟩)
    · have hp1 : alookup (bpPhase1 st b).details tid = some d :=
        bpPhase1_details_pres b st s d tid hc hcondb hd
      have hp2 : alookup (bpPhase2 net (bpPhase1 st b) b).details tid = some d :=
        bpPhase2_details_pres net b (bpPhase1 st b) s d tid hc1 hcondb hp1
      exact ih _ s d tid hc2 hcondr (Or.inr hp2)

theorem chunksGo_subset {α : Type} (n : Nat) :
    ∀ (fuel : Nat) (l b : List α), b ∈ chunksGo n fuel l → ∀ x ∈ b, x ∈ l := by
  intro fuel
  induction fuel with
  | zero =>
    intro l b hb
    cases l with
    | nil => exact absurd (hb : b ∈ ([] : List (List α))) (List.not_mem_nil _)
    | cons a t => exact absurd (hb : b ∈ ([] : List (List α))) (List.not_mem_nil _)
  | succ fuel ih =>
    intro l b hb x hx
    cases l with
    | nil =>
      have hb' : b ∈ ([] : List (List α)) := hb
      exact absurd hb' (List.not_mem_nil _)
    | cons a t =>
      have hred : chunksGo n (fuel + 1) (a :: t)
          = (a :: t).take n :: chunksGo n fuel ((a :: t).drop n) := rfl
      rw [hred] at hb
      rcases List.mem_cons.mp hb with he | he
      · exact List.take_subset n (a :: t) (he ▸ hx)
      · exact List.drop_subset n (a :: t) (ih ((a :: t).drop n) b he x hx)

theorem mem_chunksGo {α : Type} (n : Nat) (hn : 0 < n) :
    ∀ (fuel : Nat) (l : List α) (x : α), l.length ≤ fuel → x ∈ l →
      ∃ b ∈ chunksGo n fuel l, x ∈ b := by
  intro fuel
  induction fuel with
  | zero =>
    intro l x hlen hx
    rw [Nat.le_zero, List.length_eq_zero] at hlen
    rw [hlen] at hx
    exact absurd hx (List.not_mem_nil _)
  | succ fuel ih =>
    intro l x hlen hx
    cases l with
    | nil => exact absurd hx (List.not_mem_nil _)
    | cons a t =>
      have hred : chunksGo n (fuel + 1) (a :: t)
          = (a :: t).take n :: chunksGo n fuel ((a :: t).drop n) := rfl
      rw [hred]
      have hsplit : x ∈ (a :: t).take n ++ (a :: t).drop n := by
        rw [List.take_append_drop]
        exact hx
      rcases List.mem_append.mp hsplit with h | h
      · exact ⟨(a :: t).take n, List.mem_cons_self _ _, h⟩
      · have hlen2 : ((a :: t).drop n).length ≤ fuel := by
          rw [List.length_drop]
          omega
        obtain ⟨b, hb, hxb⟩ := ih ((a :: t).drop n) x hlen2 h
        exact ⟨b, List.mem_cons_of_mem _ hb, hxb⟩

/-- C5 (amended): within one run, a slug that is in the tournament cache
BEFORE a batch is processed is never fetched again: every tournament id
paired with that slug receives the identical cached TournamentDetail blob in
the details map (given the ids of the list are distinct, as they are when
built from the `tournament_slugs` dict), the cache entry survives unchanged,
and no network request for that slug is ever issued.  (Two ids sharing a
slug inside the SAME batch are not protected: see the counterexample, where
the slug is fetched twice and the second id is dropped.) -/
theorem c5_cached_slug (net : String → Option TournamentDetailObj) (st0 : BPState)
    (tlist : List (Nat × String)) (s : String) (d : TournamentDetailObj)
    (hc : alookup st0.cache s = some d) (hr : s ∉ st0.requests)
    (hnd : (tlist.map Prod.fst).Nodup) :
    alookup (batchProcessSlugList net st0 tlist).cache s = some d ∧
      s ∉ (batchProcessSlugList net st0 tlist).requests ∧
      ∀ tid, (tid, s) ∈ tlist →
        alookup (batchProcessSlugList net st0 tlist).details tid = some d := by
  have hinv := bpChunks_inv net (chunks 12 tlist) st0 s d hc hr
  refine ⟨hinv.1, hinv.2, ?_⟩
  intro tid hmem
  have hcond : ∀ p ∈ tlist, p.1 = tid → p.2 = s := by
    rintro ⟨p1, p2⟩ hp hp1
    have hp1' : p1 = tid := hp1
    rw [hp1'] at hp
    exact nodup_keys_eq_val tlist hnd hp hmem
  have hcondb : ∀ b ∈ chunks 12 tlist, ∀ p ∈ b, p.1 = tid → p.2 = s := by
    intro b hb p hp
    exact hcond p (chunksGo_subset 12 tlist.length tlist b hb p hp)
  have hex : ∃ b ∈ chunks 12 tlist, (tid, s) ∈ b :=
    mem_chunksGo 12 (by norm_num) tlist.length tlist (tid, s) (le_refl _) hmem
  exact bpChunks_details net (chunks 12 tlist) st0 s d tid hc hcondb (Or.inl hex)

/-- C5 witness: starting from a cache already holding slug "s", processing
the two-entry list issues no request for "s", keeps the cache entry, and
records the cached blob for id 7. -/
theorem c5_witness :
    alookup (batchProcessSlugList c5WNet c5WState [(7, "s"), (8, "x")]).cache "s"
        = some c5Detail ∧
      "s" ∉ (batchProcessSlugList c5WNet c5WState [(7, "s"), (8, "x")]).requests ∧
      alookup (batchProcessSlugList c5WNet c5WState [(7, "s"), (8, "x")]).details 7
        = some c5Detail := by
  have h := c5_cached_slug c5WNet c5WState [(7, "s"), (8, "x")] ("s") c5Detail
    (by decide) (by decide) (by decide)
  exact ⟨h.1, h.2.1, h.2.2 7 (by decide)⟩

/-- C5 (counterexample to the claim as stated): tournament ids 1 and 2 share
slug "s" in the same batch; the slug's fetch succeeds, yet TWO network
requests are issued for it, and id 2 never appears in the returned details
map (the second pass skips it because the first pass's iteration already put
the slug in the cache). -/
theorem c5_counterexample :
    c5Net "s" = some c5Detail ∧
      (batchProcessSlugList c5Net { cache := [], details := [], requests := [] }
          [(1, "s"), (2, "s")]).requests = ["s", "s"] ∧
      alookup (batchProcessSlugList c5Net { cache := [], details := [], requests := [] }
          [(1, "s"), (2, "s")]).details 2 = none ∧
      alookup (batchProcessSlugList c5Net { cache := [], details := [], requests := [] }
          [(1, "s"), (2, "s")]).details 1 = some c5Detail := by
  exact ⟨rfl, rfl, rfl, rfl⟩

/-! ### C8 theorems -/

/-- C8 (amended): the run terminates early with no output in exactly two
situations: when the seed tournament's competitor set cannot be resolved
(lines 94-96), OR when no competitor contributes a non-empty filtered
tournament history (lines 106-108); in every other case the run proceeds to
completion and returns a result — all downstream phases are total, and a
failed individual fetch merely yields placeholder or absent records. -/
theorem c8_none_iff (fmtDate : Int → String) (oneYearAgo currentTime : Int)
    (seedResp : Option SeedTournament)
    (page1Of : Nat → Option PlayerSetsPage1)
    (pagesOf : Nat → Nat → Option PlayerSetsPage)
    (net : String → Option TournamentDetailObj)
    (setsOf : String → Option SetsTournament)
    (scoreOf : Nat → String) :
    collect_tournament_data fmtDate oneYearAgo currentTime seedResp page1Of pagesOf net
        setsOf scoreOf = none
      ↔ ((get_tournament_players_and_game seedResp).1.isEmpty = true ∨
          (playerTournamentsAll (get_tournament_players_and_game seedResp).2 oneYearAgo
            currentTime page1Of pagesOf (get_tournament_players_and_game seedResp).1).isEmpty
            = true) := by
  unfold collect_tournament_data
  by_cases h1 : (get_tournament_players_and_game seedResp).1.isEmpty = true
  · simp [h1]
  · by_cases h2 : (playerTournamentsAll (get_tournament_players_and_game seedResp).2
        oneYearAgo currentTime page1Of pagesOf
        (get_tournament_players_and_game seedResp).1).isEmpty = true
    · simp [h1, h2]
    · simp [h1, h2]

/-- C8 (counterexample to the claim as stated): the seed tournament's
competitor set resolves to two players, so the single claimed fatal
condition does not hold — yet the run still terminates early with no output
because every per-player tournament fetch fails, leaving
`player_tournaments` empty. -/
theorem c8_counterexample :
    (get_tournament_players_and_game (some c8Seed)).1.isEmpty = false ∧
      collect_tournament_data (fun _ => "") 0 1000 (some c8Seed) (fun _ => none)
        (fun _ _ => none) (fun _ => none) (fun _ => none) (fun _ => "") = none := by
  exact ⟨rfl, rfl⟩
